import Mathlib

/-!
Shallow embedding of the surveillance system (server.py, pi_camera_client.py).

Conventions of the embedding:
* Timestamps (`time.time()`, file mtimes) are modelled as `Int` seconds.
* The SQLite `cameras` table is a list of `Camera` rows; `events` is an
  append-only list.  Columns `created_at` and `zoom_capable` are never read
  by the modelled code paths and are omitted.
* `recording_processes` (dict camera_id -> Popen handle) is an association
  list; a handle's `poll() is None` check is the `alive` flag.
* The ghost counters `spawned` (number of `subprocess.Popen` calls) and
  `terminations` (number of `proc.terminate()` calls) instrument the model;
  they change nothing observable.
* `subprocess.Popen` in `start_recording` is modelled as succeeding (its
  `except` branch only logs); the claims under study concern the
  already-running and idempotence paths.
* SHA-256 (`hash_password`) is an uninterpreted parameter `hash` of the
  handlers that store password hashes.
-/

namespace Surveillance

/-- One row of the `cameras` table (claim-relevant columns). -/
structure Camera where
  id : Nat
  name : String
  pi_user : String
  pi_pass_hash : String
  pi_ip : Option String
  pi_port : Nat
  camera_model : String
  is_online : Bool
  last_seen : Option String
  deriving DecidableEq, Repr

/-- A recording subprocess handle; `alive` is `poll() is None`. -/
structure Proc where
  alive : Bool
  deriving DecidableEq, Repr

/-- One row of the `events` table (timestamp column omitted: it is the wall
clock at insertion and no claim reads it). -/
structure Event where
  camera_id : Nat
  event_type : String
  message : String
  deriving DecidableEq, Repr

/-- Global mutable state of server.py: the cameras table, the
`recording_processes` dict, the events table, the `_pi_passwords` cache,
the SQLite AUTOINCREMENT counter, and the two ghost counters. -/
structure ServerState where
  cameras : List Camera
  next_id : Nat
  procs : List (Nat × Proc)
  events : List Event
  passwords : List (String × String)
  spawned : Nat
  terminations : Nat
  deriving DecidableEq, Repr

/-- Python falsiness of a string (`not s` holds exactly for `""`). -/
def strFalsy (s : String) : Bool :=
  s.data.isEmpty

/-- Python falsiness of an optional string (`not x` for `None` or `""`). -/
def isBlank : Option String → Bool
  | none => true
  | some s => strFalsy s

/-- Dict lookup in `recording_processes`. -/
def lookupProc : List (Nat × Proc) → Nat → Option Proc
  | [], _ => none
  | (k, v) :: rest, i => if k = i then some v else lookupProc rest i

/-- Dict store `recording_processes[cam_id] = proc` (replace or add). -/
def insertProc : List (Nat × Proc) → Nat → Proc → List (Nat × Proc)
  | [], i, p => [(i, p)]
  | (k, v) :: rest, i, p =>
    if k = i then (i, p) :: rest else (k, v) :: insertProc rest i p

/-- Dict removal `recording_processes.pop(camera_id, None)` (drop the key). -/
def eraseProc : List (Nat × Proc) → Nat → List (Nat × Proc)
  | [], _ => []
  | (k, v) :: rest, i => if k = i then rest else (k, v) :: eraseProc rest i

/-- Dict store into the `_pi_passwords` cache. -/
def insertPass : List (String × String) → String → String → List (String × String)
  | [], u, p => [(u, p)]
  | (k, v) :: rest, u, p =>
    if k = u then (u, p) :: rest else (k, v) :: insertPass rest u p

/-- The spawn tail of `start_recording`: `subprocess.Popen` succeeds, the
handle is stored under the lock, and a `recording_start` event is logged. -/
def spawnRec (camera : Camera) (st : ServerState) : ServerState :=
  { st with
    procs := insertProc st.procs camera.id { alive := true }
    spawned := st.spawned + 1
    events := st.events ++ [⟨camera.id, "recording_start", "Recording started"⟩] }

/-- Model of `start_recording(camera)`: under the lock, if a handle is registered for
the camera and `poll()` is `None`, return without doing anything; otherwise
spawn the encoder and register the new handle. -/
def start_recording (camera : Camera) (st : ServerState) : ServerState :=
  match lookupProc st.procs camera.id with
  | some p => if p.alive then st else spawnRec camera st
  | none => spawnRec camera st

/-- Model of `stop_recording(camera_id)`: pop the handle; only if one was present and
still running, terminate it (two-phase) and log a `recording_stop` event. -/
def stop_recording (camera_id : Nat) (st : ServerState) : ServerState :=
  match lookupProc st.procs camera_id with
  | none => st
  | some p =>
    let st1 := { st with procs := eraseProc st.procs camera_id }
    if p.alive then
      { st1 with
        terminations := st1.terminations + 1
        events := st1.events ++ [⟨camera_id, "recording_stop", "Recording stopped"⟩] }
    else st1

/-- Model of `get_camera(camera_id)`: SELECT by primary key. -/
def get_camera (camera_id : Nat) (st : ServerState) : Option Camera :=
  st.cameras.find? (fun c => c.id = camera_id)

/-- Byte-order comparison of strings by code point, modelling SQLite's
default text ordering for `ORDER BY name`. -/
def charListLe : List Char → List Char → Bool
  | [], _ => true
  | _ :: _, [] => false
  | a :: as, b :: bs => if a = b then charListLe as bs else decide (a.val < b.val)

/-- Insert into a name-sorted list of rows. -/
def insertByName (c : Camera) : List Camera → List Camera
  | [] => [c]
  | d :: rest =>
    if charListLe c.name.data d.name.data then c :: d :: rest
    else d :: insertByName c rest

/-- Model of `SELECT * FROM cameras ORDER BY name` (insertion sort). -/
def sortByName : List Camera → List Camera
  | [] => []
  | c :: rest => insertByName c (sortByName rest)

/-- Model of `GET /api/cameras`: list all cameras ordered by name. -/
def api_cameras (st : ServerState) : List Camera :=
  sortByName st.cameras

/-- The register handler's `cam = get_camera(cam_id); if cam:
Thread(target=start_recording, args=(cam,)).start()` step, run here
sequentially. -/
def maybe_start_recording (cam_id : Nat) (st : ServerState) : ServerState :=
  match get_camera cam_id st with
  | some cam => start_recording cam st
  | none => st

/-- Request body of `POST /api/register`; `pi_port` and `camera_model` carry
the `data.get` defaults 8554 and `""` already applied. -/
structure RegisterData where
  pi_user : Option String
  pi_pass : Option String
  pi_ip : Option String
  pi_port : Nat
  camera_model : String
  deriving DecidableEq, Repr

/-- Response of `POST /api/register`: HTTP status and the camera id on
success. -/
structure RegisterResp where
  status : Nat
  camera_id : Option Nat
  deriving DecidableEq, Repr

/-- UPDATE branch of the register upsert: refresh address, port, model, set
`is_online = 1` and `last_seen`. -/
def upsertExisting (d : RegisterData) (now u : String) (c : Camera) : Camera :=
  if c.pi_user = u then
    { c with
      pi_ip := d.pi_ip
      pi_port := d.pi_port
      camera_model := d.camera_model
      is_online := true
      last_seen := some now }
  else c

/-- Model of `POST /api/register`: reject blank credentials with 400; else upsert the
camera row (the INSERT branch writes `is_online = 1`), cache the plain
password, start recording in a thread (run here sequentially), and log a
`registered` event. `hash` is the uninterpreted SHA-256. -/
def api_register (hash : String → String) (d : RegisterData) (now : String)
    (st : ServerState) : RegisterResp × ServerState :=
  match d.pi_user, d.pi_pass with
  | some u, some p =>
    if strFalsy u || strFalsy p then (⟨400, none⟩, st)
    else
      let existing := st.cameras.find? (fun c => c.pi_user = u)
      let (cam_id, st1) : Nat × ServerState :=
        match existing with
        | some c =>
          (c.id, { st with cameras := st.cameras.map (upsertExisting d now u) })
        | none =>
          (st.next_id,
           { st with
             cameras := st.cameras ++
               [{ id := st.next_id
                  name := u
                  pi_user := u
                  pi_pass_hash := hash p
                  pi_ip := d.pi_ip
                  pi_port := d.pi_port
                  camera_model := d.camera_model
                  is_online := true
                  last_seen := some now }]
             next_id := st.next_id + 1 })
      let st2 := { st1 with passwords := insertPass st1.passwords u p }
      let st3 := maybe_start_recording cam_id st2
      let ipStr := match d.pi_ip with | some s => s | none => "None"
      let st4 :=
        { st3 with
          events := st3.events ++ [⟨cam_id, "registered", "Pi registered from " ++ ipStr⟩] }
      ((⟨200, some cam_id⟩ : RegisterResp), st4)
  | _, _ => (⟨400, none⟩, st)

/-- Outcome of one health probe: HTTP 200, a non-200 status, or a raised
`requests` exception (timeout / connection error). -/
inductive ProbeResult where
  | ok
  | badStatus
  | failed
  deriving DecidableEq, Repr

/-- UPDATE of one camera's `is_online` flag (and optionally `last_seen`). -/
def setOnline (cameras : List Camera) (i : Nat) (b : Bool) (seen : Option String) :
    List Camera :=
  cameras.map (fun c =>
    if c.id = i then
      { c with is_online := b, last_seen := match seen with | some t => some t | none => c.last_seen }
    else c)

/-- One iteration of the `health_check_loop` body for one camera: skip
cameras with a blank address; on a 200 probe mark online and ensure a live
recording (the in-lock liveness check before spawning the
`start_recording` thread); on any failure mark offline and nothing else. -/
def health_check_camera (probe : ProbeResult) (now : String) (cam : Camera)
    (st : ServerState) : ServerState :=
  if isBlank cam.pi_ip then st
  else
    match probe with
    | .ok =>
      let st1 := { st with cameras := setOnline st.cameras cam.id true (some now) }
      match lookupProc st1.procs cam.id with
      | some p => if p.alive then st1 else start_recording cam st1
      | none => start_recording cam st1
    | .badStatus => { st with cameras := setOnline st.cameras cam.id false none }
    | .failed => { st with cameras := setOnline st.cameras cam.id false none }

/-- An entry directly inside one camera's segment directory.  `unlinkRaises`
models the environment: whether `Path.unlink` on this entry raises an
OSError (it always raises on a directory, so for directories the flag is
irrelevant). -/
structure SegEnt where
  name : String
  isDir : Bool
  mtime : Int
  unlinkRaises : Bool
  deriving DecidableEq, Repr

/-- An entry directly inside the recordings root.  `children` are its
immediate children when it is a directory (deeper levels are never touched
by the sweep, since it never removes a directory). -/
structure RootEnt where
  name : String
  isDir : Bool
  mtime : Int
  children : List SegEnt
  deriving DecidableEq, Repr

/-- The outcome of a sweep over a directory tree: the entries still present,
the number of files deleted, and whether an exception escaped (aborting the
iteration at that point). -/
structure SweepResult (α : Type) where
  remaining : List α
  deleted : Nat
  raised : Bool
  deriving DecidableEq, Repr

/-- The glob `seg_*.mp4`: names of the form `seg_` ++ anything ++ `.mp4`
(equivalently, for any name, prefix `seg_` and suffix `.mp4`, since the two
can only both hold on a name of length at least 8). -/
def matchesSeg (name : String) : Bool :=
  "seg_".data.isPrefixOf name.data && ".mp4".data.isSuffixOf name.data

/-- Inner loop of `cleanup_old_recordings` over `cam_dir.glob("seg_*.mp4")`:
delete every matching entry whose mtime is before the cutoff.  `unlink` on a
directory or on a file with `unlinkRaises` raises, which aborts the loop,
leaving that entry and everything after it untouched. -/
def sweepFiles (cutoff : Int) : List SegEnt → SweepResult SegEnt
  | [] => ⟨[], 0, false⟩
  | f :: rest =>
    if matchesSeg f.name && decide (f.mtime < cutoff) then
      if f.isDir || f.unlinkRaises then ⟨f :: rest, 0, true⟩
      else
        let r := sweepFiles cutoff rest
        ⟨r.remaining, r.deleted + 1, r.raised⟩
    else
      let r := sweepFiles cutoff rest
      ⟨f :: r.remaining, r.deleted, r.raised⟩

/-- Outer loop of `cleanup_old_recordings` over `RECORDINGS_DIR.iterdir()`:
skip non-directories; sweep each directory's matching children; an escaped
exception aborts the remaining iteration. -/
def sweepDirs (cutoff : Int) : List RootEnt → SweepResult RootEnt
  | [] => ⟨[], 0, false⟩
  | d :: rest =>
    if d.isDir then
      let r := sweepFiles cutoff d.children
      let d1 := { d with children := r.remaining }
      if r.raised then ⟨d1 :: rest, r.deleted, true⟩
      else
        let r2 := sweepDirs cutoff rest
        ⟨d1 :: r2.remaining, r.deleted + r2.deleted, r2.raised⟩
    else
      let r2 := sweepDirs cutoff rest
      ⟨d :: r2.remaining, r2.deleted, r2.raised⟩

/-- Model of `cleanup_old_recordings()`: cutoff is `time.time() - MAX_AGE_HOURS *
3600`; delete every old segment file under every camera directory. -/
def cleanup_old_recordings (max_age_hours : Int) (now : Int)
    (fs : List RootEnt) : SweepResult RootEnt :=
  sweepDirs (now - max_age_hours * 3600) fs

/-- A matching old entry under the cutoff is kept exactly when it is not
deleted; `keepFile` is the retention predicate of one sweep. -/
def keepFile (cutoff : Int) (f : SegEnt) : Bool :=
  !(matchesSeg f.name && decide (f.mtime < cutoff))

/-- No eligible entry is a directory or has a failing unlink: the error-free
precondition of a sweep over `fs`. -/
def noUnlinkErr (cutoff : Int) (fs : List RootEnt) : Prop :=
  ∀ d ∈ fs, d.isDir = true → ∀ f ∈ d.children,
    matchesSeg f.name = true → f.mtime < cutoff →
      f.isDir = false ∧ f.unlinkRaises = false

/-- The error-free result of one sweep: each directory's children filtered
by the retention predicate. -/
def sweptFs (cutoff : Int) (fs : List RootEnt) : List RootEnt :=
  fs.map (fun d =>
    if d.isDir then { d with children := d.children.filter (keepFile cutoff) } else d)

/-- Number of entries an error-free sweep deletes. -/
def eligibleCount (cutoff : Int) (fs : List RootEnt) : Nat :=
  (fs.map (fun d =>
    if d.isDir then (d.children.filter (fun f => !keepFile cutoff f)).length
    else 0)).sum

/-- Relation between an input root entry and its sweep survivor: same name,
kind and mtime; a non-directory is returned untouched; a directory's child
list only ever shrinks; and every child that is itself a directory, does
not match the glob, or is not older than the cutoff survives. -/
def sweepScope (cutoff : Int) (d d1 : RootEnt) : Prop :=
  d1.name = d.name ∧ d1.isDir = d.isDir ∧ d1.mtime = d.mtime ∧
  (d.isDir = false → d1 = d) ∧
  d1.children.Sublist d.children ∧
  ∀ f ∈ d.children,
    (f.isDir = true ∨ matchesSeg f.name = false ∨ ¬ f.mtime < cutoff) →
      f ∈ d1.children

/-!
Model of pi_camera_client.py.  Frames are an arbitrary type `F`; the OpenCV
decode/grayscale/blur/diff pipeline operates on opaque frames through
function parameters.
-/

/-- State of `CameraStream`: the shared last-frame slot and the frame counter
(the FPS bookkeeping is wall-clock arithmetic on these and is not read by
any claim). -/
structure CameraStream (F : Type) where
  last_frame : Option F
  frame_count : Nat
  running : Bool
  deriving DecidableEq, Repr

/-- Model of `CameraStream.__init__`: no frame yet. -/
def CameraStream.init (F : Type) : CameraStream F :=
  { last_frame := none, frame_count := 0, running := false }

/-- One iteration of `CameraStream._read_loop`: a failed read (`ret` false)
releases and reopens the capture and leaves the frame slot alone; a
successful read stores the frame under the lock. -/
def CameraStream.readStep (cs : CameraStream F) (res : Option F) : CameraStream F :=
  match res with
  | none => cs
  | some fr => { cs with last_frame := some fr, frame_count := cs.frame_count + 1 }

/-- A run of the read loop over a sequence of read outcomes. -/
def CameraStream.runReads : CameraStream F → List (Option F) → CameraStream F
  | cs, [] => cs
  | cs, r :: rest => CameraStream.runReads (cs.readStep r) rest

/-- Model of `CameraStream.get_frame_jpeg`: under the lock, `None` if no frame was
ever decoded, else the JPEG encoding of the last frame (`encode` is the
uninterpreted `cv2.imencode`). -/
def CameraStream.get_frame_jpeg (encode : F → List Nat) (cs : CameraStream F) :
    Option (List Nat) :=
  match cs.last_frame with
  | none => none
  | some fr => some (encode fr)

/-- State of `MotionDetector` (`events` keeps the emission timestamps of the
bounded local ring; the pushed event payload carries no claim-relevant
data beyond its time). -/
structure MotionDetector (F : Type) where
  threshold : Nat
  min_area : Nat
  cooldown : Int
  prev_gray : Option F
  last_alert_time : Int
  events : List Int
  deriving DecidableEq, Repr

/-- Model of `MotionDetector.__init__` defaults. -/
def MotionDetector.init (F : Type) : MotionDetector F :=
  { threshold := 25, min_area := 5000, cooldown := 10
    prev_gray := none, last_alert_time := 0, events := [] }

/-- One iteration of `MotionDetector._detect_loop`.  `pre` is the
decode/grayscale/blur pipeline, `det thr area prev cur` the
absdiff/threshold/contour test for a region larger than `area`.  Returns
the new state and whether an event was emitted this tick. -/
def MotionDetector.tick (pre : F → F) (det : Nat → Nat → F → F → Bool)
    (md : MotionDetector F) (frame : Option F) (now : Int) :
    MotionDetector F × Bool :=
  match frame with
  | none => (md, false)
  | some fr =>
    let gray := pre fr
    match md.prev_gray with
    | none => ({ md with prev_gray := some gray }, false)
    | some prev =>
      let motion := det md.threshold md.min_area prev gray
      if motion && decide (now - md.last_alert_time > md.cooldown) then
        let evs := md.events ++ [now]
        let evs := if evs.length > 1000 then evs.drop (evs.length - 500) else evs
        ({ md with prev_gray := some gray, last_alert_time := now, events := evs }, true)
      else
        ({ md with prev_gray := some gray }, false)

/-- A run of the detect loop over a sequence of (frame, clock) ticks,
collecting the emission times in order. -/
def MotionDetector.run (pre : F → F) (det : Nat → Nat → F → F → Bool)
    (md : MotionDetector F) : List (Option F × Int) → MotionDetector F × List Int
  | [] => (md, [])
  | (f, t) :: rest =>
    let s := md.tick pre det f t
    let r := MotionDetector.run pre det s.1 rest
    (r.1, if s.2 then t :: r.2 else r.2)

/-!
Concrete fixtures used by witness and counterexample theorems.
-/

/-- A registered camera with a known address. -/
def camA : Camera :=
  { id := 1, name := "cam1", pi_user := "cam1", pi_pass_hash := "h"
    pi_ip := some "192.168.1.7", pi_port := 8554, camera_model := ""
    is_online := true, last_seen := none }

/-- Empty coordinator state. -/
def st0 : ServerState :=
  { cameras := [], next_id := 1, procs := [], events := []
    passwords := [], spawned := 0, terminations := 0 }

/-- State with a live recording handle for camera 1. -/
def stLive : ServerState :=
  { st0 with cameras := [camA], procs := [(1, { alive := true })] }

/-- State with an already-exited recording handle for camera 1. -/
def stDead : ServerState :=
  { st0 with cameras := [camA], procs := [(1, { alive := false })] }

/-- A well-formed registration request for a fresh identity. -/
def dReg : RegisterData :=
  { pi_user := some "cam1", pi_pass := some "pw"
    pi_ip := some "192.168.1.7", pi_port := 8554, camera_model := "" }

/-- A registration request missing the password. -/
def dRegNoPass : RegisterData :=
  { pi_user := some "cam1", pi_pass := none
    pi_ip := some "192.168.1.7", pi_port := 8554, camera_model := "" }

/-- An old segment whose deletion raises an OSError. -/
def segA : SegEnt :=
  { name := "seg_a.mp4", isDir := false, mtime := 0, unlinkRaises := true }

/-- An old segment that deletes fine. -/
def segB : SegEnt :=
  { name := "seg_b.mp4", isDir := false, mtime := 0, unlinkRaises := false }

/-- Camera directory in which deleting the first old segment raises and a
second old segment follows it. -/
def dirErr : RootEnt :=
  { name := "1", isDir := true, mtime := 0, children := [segA, segB] }

/-- Recordings root exhibiting the unlink-error behaviour. -/
def fsErr : List RootEnt :=
  [dirErr]

/-- Mixed recordings root at clock 360000: a stray root-level file, and a
camera directory holding an old matching segment, an old non-matching file
and a young directory whose name matches the glob. -/
def fsMixed : List RootEnt :=
  [{ name := "stray.mp4", isDir := false, mtime := 0, children := [] },
   { name := "1", isDir := true, mtime := 0
     children :=
       [{ name := "seg_x.mp4", isDir := false, mtime := 0, unlinkRaises := false },
        { name := "readme.txt", isDir := false, mtime := 0, unlinkRaises := false },
        { name := "seg_d.mp4", isDir := true, mtime := 359999, unlinkRaises := false }] }]

/-- One camera directory holding a 49-hour-old and a 47-hour-old segment at
clock 360000 (= 100 h): 49 h old is mtime 183600, 47 h old is 190800. -/
def fsAge : List RootEnt :=
  [{ name := "1", isDir := true, mtime := 0
     children :=
       [{ name := "seg_old.mp4", isDir := false, mtime := 183600, unlinkRaises := false },
        { name := "seg_new.mp4", isDir := false, mtime := 190800, unlinkRaises := false }] }]

/-- Detection ticks: baseline tick at 0, then motion at 3, 11, 15, 30 with a
10-second cooldown; only 11 and 30 may emit. -/
def ticksC5 : List (Option Nat × Int) :=
  [(some 0, 0), (some 0, 3), (some 0, 11), (some 0, 15), (some 0, 30)]

/-!
Lemmas about the process-table association list.
-/

theorem lookupProc_insertProc_self (l : List (Nat × Proc)) (i : Nat) (p : Proc) :
    lookupProc (insertProc l i p) i = some p := by
  induction l with
  | nil => simp [insertProc, lookupProc]
  | cons kv rest ih =>
    obtain ⟨k, v⟩ := kv
    by_cases hk : k = i
    · simp [insertProc, hk, lookupProc]
    · simp [insertProc, hk, lookupProc, ih]

theorem mem_keys_insertProc (l : List (Nat × Proc)) (i : Nat) (p : Proc) (a : Nat)
    (h : a ∈ (insertProc l i p).map Prod.fst) : a = i ∨ a ∈ l.map Prod.fst := by
  induction l with
  | nil =>
    simp only [insertProc, List.map_cons, List.map_nil, List.mem_singleton] at h
    exact Or.inl h
  | cons kv rest ih =>
    obtain ⟨k, v⟩ := kv
    by_cases hk : k = i
    · rw [insertProc, if_pos hk] at h
      simp only [List.map_cons, List.mem_cons] at h
      rcases h with h | h
      · exact Or.inl h
      · exact Or.inr (List.mem_cons.mpr (Or.inr h))
    · rw [insertProc, if_neg hk] at h
      simp only [List.map_cons, List.mem_cons] at h
      rcases h with h | h
      · exact Or.inr (List.mem_cons.mpr (Or.inl h))
      · rcases ih h with h1 | h1
        · exact Or.inl h1
        · exact Or.inr (List.mem_cons.mpr (Or.inr h1))

theorem insertProc_keys_nodup (l : List (Nat × Proc)) (i : Nat) (p : Proc)
    (h : (l.map Prod.fst).Nodup) : ((insertProc l i p).map Prod.fst).Nodup := by
  induction l with
  | nil => simp [insertProc]
  | cons kv rest ih =>
    obtain ⟨k, v⟩ := kv
    simp only [List.map_cons, List.nodup_cons] at h
    by_cases hk : k = i
    · rw [insertProc, if_pos hk]
      simp only [List.map_cons, List.nodup_cons]
      exact ⟨hk ▸ h.1, h.2⟩
    · rw [insertProc, if_neg hk]
      simp only [List.map_cons, List.nodup_cons]
      refine ⟨?_, ih h.2⟩
      intro hin
      rcases mem_keys_insertProc rest i p k hin with h1 | h1
      · exact hk h1
      · exact h.1 h1

/-- C1: `start_recording` is idempotent with respect to a live session: with
a registered, still-running handle the call changes nothing; a second
consecutive call is always a no-op, so two consecutive calls spawn exactly
one process when no live handle existed; and the process table keeps at
most one handle per camera id (key uniqueness is preserved). -/
theorem start_recording_idempotent (camera : Camera) (st : ServerState) :
    (∀ p, lookupProc st.procs camera.id = some p → p.alive = true →
      start_recording camera st = st) ∧
    start_recording camera (start_recording camera st) = start_recording camera st ∧
    ((∀ p, lookupProc st.procs camera.id = some p → p.alive = false) →
      (start_recording camera st).spawned = st.spawned + 1) ∧
    ((st.procs.map Prod.fst).Nodup →
      ((start_recording camera st).procs.map Prod.fst).Nodup) := by
  refine ⟨?_, ?_, ?_, ?_⟩
  · intro p hp ha
    simp [start_recording, hp, ha]
  · rcases h : lookupProc st.procs camera.id with _ | p
    · have e : start_recording camera st = spawnRec camera st := by
        simp [start_recording, h]
      rw [e]
      simp [start_recording, spawnRec, lookupProc_insertProc_self]
    · by_cases ha : p.alive
      · have e : start_recording camera st = st := by simp [start_recording, h, ha]
        simp only [e]
      · have e : start_recording camera st = spawnRec camera st := by
          simp [start_recording, h, ha]
        rw [e]
        simp [start_recording, spawnRec, lookupProc_insertProc_self]
  · intro hdead
    rcases h : lookupProc st.procs camera.id with _ | p
    · simp [start_recording, h, spawnRec]
    · have ha := hdead p h
      simp [start_recording, h, ha, spawnRec]
  · intro hnd
    rcases h : lookupProc st.procs camera.id with _ | p
    · simp only [start_recording, h, spawnRec]
      exact insertProc_keys_nodup _ _ _ hnd
    · by_cases ha : p.alive
      · simp [start_recording, h, ha, hnd]
      · simp only [start_recording, h, ha, spawnRec, Bool.false_eq_true, if_false]
        exact insertProc_keys_nodup _ _ _ hnd

/-- Witness for C1: with a live handle for camera 1 the call is a no-op, and
from the empty table two consecutive calls spawn exactly one process. -/
theorem start_recording_idempotent_witness :
    lookupProc stLive.procs camA.id = some { alive := true } ∧
    start_recording camA stLive = stLive ∧
    (start_recording camA (start_recording camA st0)).spawned = st0.spawned + 1 := by
  refine ⟨by decide, (start_recording_idempotent camA stLive).1 _ (by decide) rfl, ?_⟩
  have h2 := (start_recording_idempotent camA st0).2.1
  have h3 := (start_recording_idempotent camA st0).2.2.1 ?_
  · rw [h2, h3]
  · intro p hp
    have : lookupProc st0.procs camA.id = none := by decide
    rw [this] at hp
    exact Option.noConfusion hp

/-- C9: `stop_recording` with no registered handle is the identity; with an
already-exited handle it only removes the stale handle; a `recording_stop`
event or a termination happens only when a still-running process was
stopped. -/
theorem stop_recording_quiet_noop (camera_id : Nat) (st : ServerState) :
    (lookupProc st.procs camera_id = none → stop_recording camera_id st = st) ∧
    (∀ p, lookupProc st.procs camera_id = some p → p.alive = false →
      stop_recording camera_id st = { st with procs := eraseProc st.procs camera_id }) ∧
    (((stop_recording camera_id st).events ≠ st.events ∨
      (stop_recording camera_id st).terminations ≠ st.terminations) →
      ∃ p, lookupProc st.procs camera_id = some p ∧ p.alive = true) := by
  refine ⟨?_, ?_, ?_⟩
  · intro h
    simp [stop_recording, h]
  · intro p hp ha
    simp [stop_recording, hp, ha]
  · intro h
    rcases hl : lookupProc st.procs camera_id with _ | p
    · simp [stop_recording, hl] at h
    · by_cases ha : p.alive
      · exact ⟨p, rfl, ha⟩
      · simp [stop_recording, hl, ha] at h

/-- Witness for C9: no handle at all and an exited handle, both quiet. -/
theorem stop_recording_quiet_noop_witness :
    stop_recording 1 st0 = st0 ∧
    stop_recording 1 stDead = { stDead with procs := eraseProc stDead.procs 1 } ∧
    (stop_recording 1 stDead).events = stDead.events := by
  refine ⟨(stop_recording_quiet_noop 1 st0).1 (by decide),
    (stop_recording_quiet_noop 1 stDead).2.1 { alive := false } (by decide) rfl, ?_⟩
  rw [(stop_recording_quiet_noop 1 stDead).2.1 { alive := false } (by decide) rfl]

/-- C8: a register request whose `pi_user` or `pi_pass` is missing or empty
gets a 400 response and leaves the whole server state unchanged. -/
theorem api_register_missing_credentials (hash : String → String) (d : RegisterData)
    (now : String) (st : ServerState)
    (h : isBlank d.pi_user = true ∨ isBlank d.pi_pass = true) :
    api_register hash d now st = (⟨400, none⟩, st) := by
  rcases hu : d.pi_user with _ | u <;> rcases hp : d.pi_pass with _ | p <;>
    simp only [api_register, hu, hp]
  rw [hu, hp] at h
  have hb : (strFalsy u || strFalsy p) = true := by
    rcases h with h | h
    · simp only [isBlank] at h
      rw [h, Bool.true_or]
    · simp only [isBlank] at h
      rw [h, Bool.or_true]
  simp [hb]

/-- Witness for C8: registering without a password is rejected with 400 and
the empty state is returned untouched. -/
theorem api_register_missing_credentials_witness :
    api_register (fun s => s) dRegNoPass "T0" st0 = (⟨400, none⟩, st0) :=
  api_register_missing_credentials (fun s => s) dRegNoPass "T0" st0 (Or.inr (by decide))

/-- Camera rows with a different id are untouched by `setOnline`. -/
theorem setOnline_mem (cameras : List Camera) (i : Nat) (b : Bool)
    (seen : Option String) (c : Camera) (hc : c ∈ cameras) (hne : c.id ≠ i) :
    c ∈ setOnline cameras i b seen :=
  List.mem_map.mpr ⟨c, hc, by simp [hne]⟩

/-- C6: a failed health probe (non-200 status or raised exception) for a
camera with a known address only flips that camera's online flag to false:
the process table, ghost counters and event log are unchanged (so no
recording is stopped and no termination is attempted) and every other
camera's row survives as is. -/
theorem health_probe_fail_offline_only (probe : ProbeResult) (now : String)
    (cam : Camera) (st : ServerState)
    (hip : isBlank cam.pi_ip = false) (hfail : probe ≠ ProbeResult.ok) :
    health_check_camera probe now cam st =
      { st with cameras := setOnline st.cameras cam.id false none } ∧
    (health_check_camera probe now cam st).procs = st.procs ∧
    (health_check_camera probe now cam st).events = st.events ∧
    (health_check_camera probe now cam st).spawned = st.spawned ∧
    (health_check_camera probe now cam st).terminations = st.terminations ∧
    ∀ c ∈ st.cameras, c.id ≠ cam.id →
      c ∈ (health_check_camera probe now cam st).cameras := by
  have e : health_check_camera probe now cam st =
      { st with cameras := setOnline st.cameras cam.id false none } := by
    cases probe with
    | ok => exact absurd rfl hfail
    | badStatus => simp [health_check_camera, hip]
    | failed => simp [health_check_camera, hip]
  refine ⟨e, by rw [e], by rw [e], by rw [e], by rw [e], ?_⟩
  intro c hc hne
  rw [e]
  exact setOnline_mem st.cameras cam.id false none c hc hne

/-- Witness for C6: a raised probe exception on camera 1 only marks it
offline; the live recording handle survives. -/
theorem health_probe_fail_offline_only_witness :
    health_check_camera ProbeResult.failed "T1" camA stLive =
      { stLive with cameras := setOnline stLive.cameras camA.id false none } ∧
    (health_check_camera ProbeResult.failed "T1" camA stLive).procs = stLive.procs :=
  ⟨(health_probe_fail_offline_only ProbeResult.failed "T1" camA stLive
      (by decide) (by decide)).1,
   (health_probe_fail_offline_only ProbeResult.failed "T1" camA stLive
      (by decide) (by decide)).2.1⟩

/-!
Lemmas about the frame slot of the ingestion loop.
-/

theorem runReads_none_iff (F : Type) (cs : CameraStream F) (reads : List (Option F)) :
    (CameraStream.runReads cs reads).last_frame = none ↔
      cs.last_frame = none ∧ ∀ r ∈ reads, r = none := by
  induction reads generalizing cs with
  | nil => simp [CameraStream.runReads]
  | cons r rest ih =>
    cases r with
    | none =>
      rw [CameraStream.runReads]
      rw [show cs.readStep none = cs from rfl]
      rw [ih cs]
      simp
    | some f =>
      rw [CameraStream.runReads]
      rw [ih]
      simp [CameraStream.readStep]

theorem runReads_all_none (F : Type) (cs : CameraStream F) (reads : List (Option F))
    (h : ∀ r ∈ reads, r = none) : CameraStream.runReads cs reads = cs := by
  induction reads with
  | nil => rfl
  | cons r rest ih =>
    have hr : r = none := h r (List.mem_cons_self r rest)
    rw [CameraStream.runReads, hr]
    rw [show cs.readStep none = cs from rfl]
    exact ih (fun x hx => h x (List.mem_cons_of_mem r hx))

theorem get_frame_jpeg_eq_none_iff (F : Type) (encode : F → List Nat)
    (cs : CameraStream F) :
    CameraStream.get_frame_jpeg encode cs = none ↔ cs.last_frame = none := by
  cases h : cs.last_frame <;> simp [CameraStream.get_frame_jpeg, h]

/-- C7: `get_frame_jpeg` returns none exactly when no frame was ever
decoded; any run of failed reads (the reconnect loop) leaves the last good
frame in place, so `get_frame_jpeg` keeps returning it, and it is replaced
only by the frame of a successful read. -/
theorem frame_slot_persistence (F : Type) (encode : F → List Nat) :
    (∀ reads : List (Option F),
      CameraStream.get_frame_jpeg encode
          (CameraStream.runReads (CameraStream.init F) reads) = none ↔
        ∀ r ∈ reads, r = none) ∧
    (∀ (cs : CameraStream F) (f : F) (fails : List (Option F)),
      cs.last_frame = some f → (∀ r ∈ fails, r = none) →
      CameraStream.get_frame_jpeg encode (CameraStream.runReads cs fails) =
        some (encode f)) ∧
    (∀ (cs : CameraStream F) (f2 : F),
      (cs.readStep (some f2)).last_frame = some f2) := by
  refine ⟨?_, ?_, ?_⟩
  · intro reads
    rw [get_frame_jpeg_eq_none_iff, runReads_none_iff]
    simp [CameraStream.init]
  · intro cs f fails hf hall
    rw [runReads_all_none F cs fails hall]
    simp [CameraStream.get_frame_jpeg, hf]
  · intro cs f2
    rfl

/-- Witness for C7: after two failed reads nothing is available from a fresh
stream; after three failed reads following a good frame 5, the encoding of
frame 5 is still served; a successful read stores frame 7. -/
theorem frame_slot_persistence_witness :
    CameraStream.get_frame_jpeg (fun n => [n])
        (CameraStream.runReads (CameraStream.init Nat) [none, none]) = none ∧
    CameraStream.get_frame_jpeg (fun n => [n])
        (CameraStream.runReads
          { last_frame := some 5, frame_count := 1, running := true }
          [none, none, none]) = some [5] ∧
    ((CameraStream.init Nat).readStep (some 7)).last_frame = some 7 :=
  ⟨(frame_slot_persistence Nat (fun n => [n])).1 [none, none] |>.mpr (by decide),
   (frame_slot_persistence Nat (fun n => [n])).2.1
     { last_frame := some 5, frame_count := 1, running := true } 5
     [none, none, none] rfl (by decide),
   (frame_slot_persistence Nat (fun n => [n])).2.2 (CameraStream.init Nat) 7⟩

/-!
Lemmas about the motion-detection loop.
-/

theorem tick_cooldown (F : Type) (pre : F → F) (det : Nat → Nat → F → F → Bool)
    (md : MotionDetector F) (f : Option F) (t : Int) :
    (md.tick pre det f t).1.cooldown = md.cooldown := by
  cases f with
  | none => rfl
  | some fr =>
    cases hp : md.prev_gray with
    | none => simp [MotionDetector.tick, hp]
    | some prev =>
      simp only [MotionDetector.tick, hp]
      split <;> rfl

theorem tick_emit_char (F : Type) (pre : F → F) (det : Nat → Nat → F → F → Bool)
    (md : MotionDetector F) (f : Option F) (t : Int)
    (h : (md.tick pre det f t).2 = true) :
    (∃ fr prev, f = some fr ∧ md.prev_gray = some prev ∧
      det md.threshold md.min_area prev (pre fr) = true) ∧
    md.last_alert_time + md.cooldown < t ∧
    (md.tick pre det f t).1.last_alert_time = t := by
  cases f with
  | none => simp [MotionDetector.tick] at h
  | some fr =>
    cases hp : md.prev_gray with
    | none => simp [MotionDetector.tick, hp] at h
    | some prev =>
      by_cases hc : (det md.threshold md.min_area prev (pre fr) &&
          decide (t - md.last_alert_time > md.cooldown)) = true
      · have hboth := hc
        simp only [Bool.and_eq_true, decide_eq_true_eq] at hboth
        refine ⟨⟨fr, prev, rfl, rfl, hboth.1⟩, ?_, ?_⟩
        · have := hboth.2
          omega
        · simp [MotionDetector.tick, hp, hc]
      · simp [MotionDetector.tick, hp, hc] at h

theorem tick_no_emit (F : Type) (pre : F → F) (det : Nat → Nat → F → F → Bool)
    (md : MotionDetector F) (f : Option F) (t : Int)
    (h : (md.tick pre det f t).2 = false) :
    (md.tick pre det f t).1.last_alert_time = md.last_alert_time := by
  cases f with
  | none => rfl
  | some fr =>
    cases hp : md.prev_gray with
    | none => simp [MotionDetector.tick, hp]
    | some prev =>
      by_cases hc : (det md.threshold md.min_area prev (pre fr) &&
          decide (t - md.last_alert_time > md.cooldown)) = true
      · simp [MotionDetector.tick, hp, hc] at h
      · simp [MotionDetector.tick, hp, hc]

theorem run_chain (F : Type) (pre : F → F) (det : Nat → Nat → F → F → Bool)
    (md : MotionDetector F) (inputs : List (Option F × Int)) :
    List.Chain (fun a b => a + md.cooldown < b) md.last_alert_time
      (MotionDetector.run pre det md inputs).2 := by
  induction inputs generalizing md with
  | nil => exact List.Chain.nil
  | cons ft rest ih =>
    obtain ⟨f, t⟩ := ft
    by_cases he : (md.tick pre det f t).2 = true
    · have hc := tick_emit_char F pre det md f t he
      simp only [MotionDetector.run, he, if_true]
      refine List.Chain.cons hc.2.1 ?_
      have h2 := ih ((md.tick pre det f t).1)
      rw [tick_cooldown, hc.2.2] at h2
      exact h2
    · have hne : (md.tick pre det f t).2 = false := by
        simpa using he
      simp only [MotionDetector.run, hne, Bool.false_eq_true, if_false]
      have h2 := ih ((md.tick pre det f t).1)
      rw [tick_cooldown, tick_no_emit F pre det md f t hne] at h2
      exact h2

/-- C5: on any tick sequence, adjacent emitted motion events are at least
the configured cooldown apart (the code even enforces a strict gap), and an
event is emitted on a tick only when a frame is present, a baseline exists,
the detector reports motion, and at least cooldown seconds have passed
since the last emitted event. -/
theorem motion_cooldown_gap (F : Type) (pre : F → F) (det : Nat → Nat → F → F → Bool)
    (md : MotionDetector F) (inputs : List (Option F × Int)) :
    List.Chain' (fun a b : Int => md.cooldown ≤ b - a)
      (MotionDetector.run pre det md inputs).2 ∧
    ∀ (md1 : MotionDetector F) (f : Option F) (t : Int),
      (md1.tick pre det f t).2 = true →
        (∃ fr prev, f = some fr ∧ md1.prev_gray = some prev ∧
          det md1.threshold md1.min_area prev (pre fr) = true) ∧
        md1.cooldown ≤ t - md1.last_alert_time := by
  constructor
  · have h := run_chain F pre det md inputs
    rcases hl : (MotionDetector.run pre det md inputs).2 with _ | ⟨b, tl⟩
    · exact trivial
    · rw [hl] at h
      have h2 := (List.chain_cons.mp h).2
      exact List.Chain.imp (fun x y hxy => by omega) h2
  · intro md1 f t h
    have hc := tick_emit_char F pre det md1 f t h
    exact ⟨hc.1, by have := hc.2.1; omega⟩

/-- Witness for C5: with a detector that always reports motion and ticks at
times 0, 3, 11, 15, 30 under the default 10-second cooldown, exactly the
ticks at 11 and 30 emit, their gap respects the cooldown, and the emitting
tick at 11 is at least cooldown past the initial alert time 0. -/
theorem motion_cooldown_gap_witness :
    (MotionDetector.run (fun x => x) (fun _ _ _ _ => true)
        (MotionDetector.init Nat) ticksC5).2 = [11, 30] ∧
    List.Chain' (fun a b : Int => (MotionDetector.init Nat).cooldown ≤ b - a)
      (MotionDetector.run (fun x => x) (fun _ _ _ _ => true)
        (MotionDetector.init Nat) ticksC5).2 ∧
    (10 : Int) ≤ 11 - 0 := by
  refine ⟨by decide,
    (motion_cooldown_gap Nat (fun x => x) (fun _ _ _ _ => true)
      (MotionDetector.init Nat) ticksC5).1, ?_⟩
  have h := (motion_cooldown_gap Nat (fun x => x) (fun _ _ _ _ => true)
      (MotionDetector.init Nat) ticksC5).2
    { MotionDetector.init Nat with prev_gray := some 0 } (some 0) 11 (by decide)
  exact h.2

/-!
Lemmas about the retention sweep.
-/

theorem sweepFiles_noErr (cutoff : Int) (l : List SegEnt)
    (h : ∀ f ∈ l, matchesSeg f.name = true → f.mtime < cutoff →
      f.isDir = false ∧ f.unlinkRaises = false) :
    sweepFiles cutoff l =
      ⟨l.filter (keepFile cutoff),
       (l.filter (fun f => !keepFile cutoff f)).length, false⟩ := by
  induction l with
  | nil => rfl
  | cons f rest ih =>
    have hrest := ih (fun g hg => h g (List.mem_cons_of_mem f hg))
    by_cases hm : (matchesSeg f.name && decide (f.mtime < cutoff)) = true
    · have hm2 := hm
      simp only [Bool.and_eq_true, decide_eq_true_eq] at hm2
      obtain ⟨hdir, hraise⟩ := h f (List.mem_cons_self f rest) hm2.1 hm2.2
      rw [sweepFiles, if_pos hm, if_neg (by simp [hdir, hraise]), hrest]
      have hk : keepFile cutoff f = false := by simp [keepFile, hm]
      simp [hk]
    · rw [sweepFiles, if_neg hm, hrest]
      have hc : (matchesSeg f.name && decide (f.mtime < cutoff)) = false := by
        cases hb : (matchesSeg f.name && decide (f.mtime < cutoff))
        · rfl
        · exact absurd hb hm
      have hk : keepFile cutoff f = true := by rw [keepFile, hc]; rfl
      simp [hk]

theorem sweepDirs_noErr (cutoff : Int) (fs : List RootEnt)
    (h : noUnlinkErr cutoff fs) :
    sweepDirs cutoff fs = ⟨sweptFs cutoff fs, eligibleCount cutoff fs, false⟩ := by
  induction fs with
  | nil => rfl
  | cons d rest ih =>
    have hrest := ih (fun d1 hd1 => h d1 (List.mem_cons_of_mem d hd1))
    by_cases hd : d.isDir = true
    · have hfiles := sweepFiles_noErr cutoff d.children
        (h d (List.mem_cons_self d rest) hd)
      rw [sweepDirs, if_pos hd, hfiles]
      simp only [if_neg (by simp : ¬ false = true)]
      rw [hrest]
      simp [sweptFs, eligibleCount, hd]
    · rw [sweepDirs, if_neg hd, hrest]
      simp [sweptFs, eligibleCount, hd]

theorem filter_keep_no_eligible (cutoff : Int) (l : List SegEnt) :
    ∀ f ∈ l.filter (keepFile cutoff),
      matchesSeg f.name = true → f.mtime < cutoff → False := by
  intro f hf hm ho
  have hk := List.of_mem_filter hf
  simp [keepFile, hm, ho] at hk

theorem swept_noUnlinkErr (cutoff : Int) (fs : List RootEnt) :
    noUnlinkErr cutoff (sweptFs cutoff fs) := by
  intro d hd hdir f hf hm ho
  rcases List.mem_map.mp hd with ⟨d0, hd0, rfl⟩
  by_cases hdd : d0.isDir = true
  · rw [if_pos hdd] at hf
    exact absurd hm (by
      have := filter_keep_no_eligible cutoff d0.children f hf
      exact fun h2 => absurd (this h2 ho) (fun x => x))
  · rw [if_neg hdd] at hdir
    exact absurd hdir hdd

theorem sweptFs_idem (cutoff : Int) (fs : List RootEnt) :
    sweptFs cutoff (sweptFs cutoff fs) = sweptFs cutoff fs := by
  induction fs with
  | nil => rfl
  | cons d rest ih =>
    simp only [sweptFs, List.map_cons] at ih ⊢
    rw [ih]
    by_cases hd : d.isDir = true
    · simp only [if_pos hd, if_pos (show ({ d with children := d.children.filter (keepFile cutoff) } : RootEnt).isDir = true from hd)]
      rw [List.filter_filter]
      simp
    · simp [hd]

theorem eligibleCount_swept (cutoff : Int) (fs : List RootEnt) :
    eligibleCount cutoff (sweptFs cutoff fs) = 0 := by
  induction fs with
  | nil => rfl
  | cons d rest ih =>
    simp only [eligibleCount, sweptFs, List.map_cons, List.sum_cons] at ih ⊢
    rw [ih, Nat.add_zero]
    by_cases hd : d.isDir = true
    · simp only [if_pos hd, if_pos (show ({ d with children := d.children.filter (keepFile cutoff) } : RootEnt).isDir = true from hd)]
      rw [List.filter_filter]
      have : ∀ f ∈ d.children, ((!keepFile cutoff f) && keepFile cutoff f) = false := by
        intro f _
        cases keepFile cutoff f <;> rfl
      rw [List.filter_eq_nil_iff.mpr (by intro a ha; simp [this a ha])]
      rfl
    · simp [hd]

/-- C4: with no unlink errors, the sweep deletes exactly the `seg_*.mp4`
entries whose mtime is older than `now - maxAge*3600` and keeps everything
else, and a second sweep over the result deletes nothing. -/
theorem cleanup_exact_window (max_age_hours now : Int) (fs : List RootEnt)
    (h : noUnlinkErr (now - max_age_hours * 3600) fs) :
    cleanup_old_recordings max_age_hours now fs =
      ⟨sweptFs (now - max_age_hours * 3600) fs,
       eligibleCount (now - max_age_hours * 3600) fs, false⟩ ∧
    cleanup_old_recordings max_age_hours now
        (sweptFs (now - max_age_hours * 3600) fs) =
      ⟨sweptFs (now - max_age_hours * 3600) fs, 0, false⟩ := by
  constructor
  · exact sweepDirs_noErr _ fs h
  · rw [cleanup_old_recordings,
      sweepDirs_noErr _ _ (swept_noUnlinkErr (now - max_age_hours * 3600) fs),
      sweptFs_idem, eligibleCount_swept]

/-- Witness for C4 at clock 360000 with the default 48-hour window: the
49-hour-old segment (mtime 183600) is deleted, the 47-hour-old one (mtime
190800) is retained, and sweeping the result again deletes nothing. -/
theorem cleanup_exact_window_witness :
    noUnlinkErr (360000 - 48 * 3600) fsAge ∧
    cleanup_old_recordings 48 360000 fsAge =
      ⟨sweptFs (360000 - 48 * 3600) fsAge,
       eligibleCount (360000 - 48 * 3600) fsAge, false⟩ ∧
    sweptFs (360000 - 48 * 3600) fsAge =
      [{ name := "1", isDir := true, mtime := 0
         children :=
           [{ name := "seg_new.mp4", isDir := false, mtime := 190800,
              unlinkRaises := false }] }] ∧
    eligibleCount (360000 - 48 * 3600) fsAge = 1 ∧
    cleanup_old_recordings 48 360000 (sweptFs (360000 - 48 * 3600) fsAge) =
      ⟨sweptFs (360000 - 48 * 3600) fsAge, 0, false⟩ :=
  ⟨by unfold noUnlinkErr; decide,
   (cleanup_exact_window 48 360000 fsAge (by unfold noUnlinkErr; decide)).1,
   by decide, by decide,
   (cleanup_exact_window 48 360000 fsAge (by unfold noUnlinkErr; decide)).2⟩

theorem sweepFiles_sublist (cutoff : Int) (l : List SegEnt) :
    (sweepFiles cutoff l).remaining.Sublist l := by
  induction l with
  | nil => simp [sweepFiles]
  | cons f rest ih =>
    by_cases hm : (matchesSeg f.name && decide (f.mtime < cutoff)) = true
    · by_cases he : (f.isDir || f.unlinkRaises) = true
      · rw [sweepFiles, if_pos hm, if_pos he]
      · rw [sweepFiles, if_pos hm, if_neg he]
        exact ih.cons f
    · rw [sweepFiles, if_neg hm]
      exact ih.cons₂ f

theorem sweepFiles_keeps (cutoff : Int) (l : List SegEnt) :
    ∀ f ∈ l, (f.isDir = true ∨ matchesSeg f.name = false ∨ ¬ f.mtime < cutoff) →
      f ∈ (sweepFiles cutoff l).remaining := by
  induction l with
  | nil => intro f hf _; exact absurd hf (List.not_mem_nil f)
  | cons g rest ih =>
    intro f hf hcond
    by_cases hm : (matchesSeg g.name && decide (g.mtime < cutoff)) = true
    · by_cases he : (g.isDir || g.unlinkRaises) = true
      · rw [sweepFiles, if_pos hm, if_pos he]
        exact hf
      · rw [sweepFiles, if_pos hm, if_neg he]
        rcases List.mem_cons.mp hf with rfl | hf2
        · exfalso
          have hm2 := hm
          simp only [Bool.and_eq_true, decide_eq_true_eq] at hm2
          simp only [Bool.or_eq_true] at he
          push_neg at he
          rcases hcond with hc | hc | hc
          · exact absurd hc (by simpa using he.1)
          · exact absurd hm2.1 (by simp [hc])
          · exact hc hm2.2
        · exact ih f hf2 hcond
    · rw [sweepFiles, if_neg hm]
      rcases List.mem_cons.mp hf with rfl | hf2
      · exact List.mem_cons_self f _
      · exact List.mem_cons_of_mem g (ih f hf2 hcond)

theorem sweepScope_refl (cutoff : Int) (d : RootEnt) : sweepScope cutoff d d :=
  ⟨rfl, rfl, rfl, fun _ => rfl, List.Sublist.refl d.children, fun _ hf _ => hf⟩

theorem sweepScope_dir (cutoff : Int) (d : RootEnt) (hd : d.isDir = true) :
    sweepScope cutoff d { d with children := (sweepFiles cutoff d.children).remaining } :=
  ⟨rfl, rfl, rfl, fun hc => absurd hd (by simp [hc]),
   sweepFiles_sublist cutoff d.children, sweepFiles_keeps cutoff d.children⟩

/-- C10: the sweep only ever deletes regular files matching `seg_*.mp4`
directly inside an immediate subdirectory of the recordings root: every
root-level entry survives with its name, kind and mtime (a non-directory
entirely untouched), child lists only shrink, and every child that is a
directory, does not match the glob, or is not old enough survives — also on
runs aborted by an unlink error. -/
theorem sweep_touches_only_matching_files (max_age_hours now : Int)
    (fs : List RootEnt) :
    List.Forall₂ (sweepScope (now - max_age_hours * 3600)) fs
      (cleanup_old_recordings max_age_hours now fs).remaining := by
  rw [cleanup_old_recordings]
  induction fs with
  | nil => exact List.Forall₂.nil
  | cons d rest ih =>
    by_cases hd : d.isDir = true
    · by_cases hr : (sweepFiles (now - max_age_hours * 3600) d.children).raised = true
      · rw [sweepDirs, if_pos hd, if_pos hr]
        exact List.Forall₂.cons (sweepScope_dir _ d hd)
          (List.forall₂_same.mpr (fun x _ => sweepScope_refl _ x))
      · rw [sweepDirs, if_pos hd, if_neg hr]
        exact List.Forall₂.cons (sweepScope_dir _ d hd) ih
    · rw [sweepDirs, if_neg hd]
      exact List.Forall₂.cons (sweepScope_refl _ d) ih

/-- Witness for C10 on a mixed tree: the stray root file, the old
non-matching file and the young matching directory all survive; only the
old matching segment file is removed. -/
theorem sweep_touches_only_matching_files_witness :
    List.Forall₂ (sweepScope (360000 - 48 * 3600)) fsMixed
      (cleanup_old_recordings 48 360000 fsMixed).remaining ∧
    cleanup_old_recordings 48 360000 fsMixed =
      ⟨[{ name := "stray.mp4", isDir := false, mtime := 0, children := [] },
        { name := "1", isDir := true, mtime := 0
          children :=
            [{ name := "readme.txt", isDir := false, mtime := 0,
               unlinkRaises := false },
             { name := "seg_d.mp4", isDir := true, mtime := 359999,
               unlinkRaises := false }] }], 1, false⟩ :=
  ⟨sweep_touches_only_matching_files 48 360000 fsMixed, by decide⟩

/-- C3 counterexample: at clock 360000 over `fsErr`, deleting the first old
segment raises; the sweep neither logs-and-continues nor deletes the second
eligible segment — it aborts with nothing deleted and the error escaping
`cleanup_old_recordings`, contradicting the claim that a per-file deletion
error is skipped and never propagates. -/
theorem cleanup_unlink_error_cex :
    cleanup_old_recordings 48 360000 fsErr = ⟨fsErr, 0, true⟩ ∧
    ¬ ((cleanup_old_recordings 48 360000 fsErr).raised = false ∧
       segB ∉ ((cleanup_old_recordings 48 360000 fsErr).remaining.map
         RootEnt.children).flatten) := by
  constructor
  · decide
  · decide

theorem sweepFiles_append (cutoff : Int) (l1 l2 : List SegEnt)
    (h : (sweepFiles cutoff l1).raised = false) :
    sweepFiles cutoff (l1 ++ l2) =
      ⟨(sweepFiles cutoff l1).remaining ++ (sweepFiles cutoff l2).remaining,
       (sweepFiles cutoff l1).deleted + (sweepFiles cutoff l2).deleted,
       (sweepFiles cutoff l2).raised⟩ := by
  induction l1 with
  | nil => simp [sweepFiles]
  | cons g rest ih =>
    by_cases hm : (matchesSeg g.name && decide (g.mtime < cutoff)) = true
    · by_cases he : (g.isDir || g.unlinkRaises) = true
      · rw [sweepFiles, if_pos hm, if_pos he] at h
        exact absurd h (by simp)
      · rw [sweepFiles, if_pos hm, if_neg he] at h
        rw [List.cons_append, sweepFiles, if_pos hm, if_neg he, ih h,
          sweepFiles, if_pos hm, if_neg he]
        simp [Nat.add_assoc, Nat.add_comm, Nat.add_left_comm]
    · rw [sweepFiles, if_neg hm] at h
      rw [List.cons_append, sweepFiles, if_neg hm, ih h,
        sweepFiles, if_neg hm]
      simp

theorem sweepFiles_cons_raise (cutoff : Int) (f : SegEnt) (l2 : List SegEnt)
    (hm : matchesSeg f.name = true) (ho : f.mtime < cutoff)
    (hf : (f.isDir || f.unlinkRaises) = true) :
    sweepFiles cutoff (f :: l2) = ⟨f :: l2, 0, true⟩ := by
  rw [sweepFiles, if_pos (by simp [hm, ho]), if_pos hf]

theorem sweepDirs_append (cutoff : Int) (ds1 ds2 : List RootEnt)
    (h : (sweepDirs cutoff ds1).raised = false) :
    sweepDirs cutoff (ds1 ++ ds2) =
      ⟨(sweepDirs cutoff ds1).remaining ++ (sweepDirs cutoff ds2).remaining,
       (sweepDirs cutoff ds1).deleted + (sweepDirs cutoff ds2).deleted,
       (sweepDirs cutoff ds2).raised⟩ := by
  induction ds1 with
  | nil => simp [sweepDirs]
  | cons d rest ih =>
    by_cases hd : d.isDir = true
    · by_cases hr : (sweepFiles cutoff d.children).raised = true
      · rw [sweepDirs, if_pos hd, if_pos hr] at h
        exact absurd h (by simp)
      · rw [sweepDirs, if_pos hd, if_neg hr] at h
        rw [List.cons_append, sweepDirs, if_pos hd, if_neg hr, ih h,
          sweepDirs, if_pos hd, if_neg hr]
        simp [Nat.add_assoc]
    · rw [sweepDirs, if_neg hd] at h
      rw [List.cons_append, sweepDirs, if_neg hd, ih h,
        sweepDirs, if_neg hd]
      simp

theorem sweepDirs_cons_raise (cutoff : Int) (d : RootEnt) (ds2 : List RootEnt)
    (hd : d.isDir = true)
    (hr : (sweepFiles cutoff d.children).raised = true) :
    sweepDirs cutoff (d :: ds2) =
      ⟨{ d with children := (sweepFiles cutoff d.children).remaining } :: ds2,
       (sweepFiles cutoff d.children).deleted, true⟩ := by
  rw [sweepDirs, if_pos hd, if_pos hr]

/-- C3 amended: a per-file deletion error aborts the sweep and propagates
out of `cleanup_old_recordings` to its caller: with error-free prefixes,
once unlink raises on an eligible entry the sweep stops — that entry, the
rest of its directory and all later directories are left unprocessed and
the raised flag escapes. -/
theorem cleanup_error_propagates (max_age_hours now cutoff : Int)
    (ds1 ds2 : List RootEnt) (d : RootEnt) (l1 l2 : List SegEnt) (f : SegEnt)
    (hcut : cutoff = now - max_age_hours * 3600)
    (hd : d.isDir = true) (hch : d.children = l1 ++ f :: l2)
    (h1 : (sweepDirs cutoff ds1).raised = false)
    (h2 : (sweepFiles cutoff l1).raised = false)
    (hm : matchesSeg f.name = true) (ho : f.mtime < cutoff)
    (hf : (f.isDir || f.unlinkRaises) = true) :
    cleanup_old_recordings max_age_hours now (ds1 ++ d :: ds2) =
      ⟨(sweepDirs cutoff ds1).remaining ++
         ({ d with children := (sweepFiles cutoff l1).remaining ++ f :: l2 } :: ds2),
       (sweepDirs cutoff ds1).deleted + (sweepFiles cutoff l1).deleted, true⟩ := by
  subst hcut
  rw [cleanup_old_recordings]
  have e1 : sweepFiles (now - max_age_hours * 3600) d.children =
      ⟨(sweepFiles (now - max_age_hours * 3600) l1).remaining ++ f :: l2,
       (sweepFiles (now - max_age_hours * 3600) l1).deleted, true⟩ := by
    rw [hch, sweepFiles_append _ _ _ h2, sweepFiles_cons_raise _ f l2 hm ho hf]
    rfl
  rw [sweepDirs_append _ _ _ h1, sweepDirs_cons_raise _ d ds2 hd (by rw [e1]),
    e1]

/-- Witness for C3 at clock 360000: unlink raises on `segA`; the sweep
returns with the error escaping and `segB` still present. -/
theorem cleanup_error_propagates_witness :
    cleanup_old_recordings 48 360000 fsErr =
      ⟨[{ dirErr with children := [segA, segB] }], 0, true⟩ := by
  have h := cleanup_error_propagates 48 360000 (360000 - 48 * 3600)
    [] [] dirErr [] [segB] segA rfl rfl rfl rfl rfl (by decide) (by decide)
    (by decide)
  simpa using h

/-!
Lemmas for the registration upsert.
-/

theorem start_recording_cameras (cam : Camera) (st : ServerState) :
    (start_recording cam st).cameras = st.cameras := by
  rcases h : lookupProc st.procs cam.id with _ | p
  · simp [start_recording, h, spawnRec]
  · by_cases hp : p.alive <;> simp [start_recording, h, hp, spawnRec]

theorem maybe_start_recording_cameras (cam_id : Nat) (st : ServerState) :
    (maybe_start_recording cam_id st).cameras = st.cameras := by
  rw [maybe_start_recording]
  cases get_camera cam_id st with
  | none => rfl
  | some cam => exact start_recording_cameras cam st

theorem mem_insertByName (c x : Camera) (l : List Camera) :
    x ∈ insertByName c l ↔ x = c ∨ x ∈ l := by
  induction l with
  | nil => simp [insertByName]
  | cons dd rest ih =>
    by_cases hle : charListLe c.name.data dd.name.data = true
    · rw [insertByName, if_pos hle]
      simp [List.mem_cons]
    · rw [insertByName, if_neg hle]
      simp only [List.mem_cons, ih]
      tauto

theorem mem_sortByName (x : Camera) (l : List Camera) :
    x ∈ sortByName l ↔ x ∈ l := by
  induction l with
  | nil => simp [sortByName]
  | cons c rest ih =>
    rw [sortByName, mem_insertByName]
    simp [ih, List.mem_cons]

/-- C2 counterexample: registering the previously unknown identity `cam1`
on the empty state yields a row that `GET /api/cameras` lists with
online = true, not false — the INSERT branch writes `is_online = 1`, so
the claim that a newly registered camera is listed offline until the first
successful probe is false. -/
theorem register_new_lists_online_cex :
    ((api_cameras ((api_register (fun s => s) dReg "T0" st0).2)).map
        (fun c => (c.pi_user, c.is_online))) = [("cam1", true)] ∧
    ¬ ∃ c ∈ api_cameras ((api_register (fun s => s) dReg "T0" st0).2),
        c.pi_user = "cam1" ∧ c.is_online = false := by
  constructor
  · decide
  · decide

/-- C2 amended: registering a previously unknown identity creates the row
with its online flag true (registration itself marks the camera online;
`last_seen` is set to the registration time) and `GET /api/cameras`
immediately lists it with online = true; the display name defaults to the
identity. -/
theorem api_register_new_marks_online (hash : String → String) (d : RegisterData)
    (now : String) (st : ServerState) (u p : String)
    (hu : d.pi_user = some u) (hp : d.pi_pass = some p)
    (hue : strFalsy u = false) (hpe : strFalsy p = false)
    (hnew : st.cameras.find? (fun c => c.pi_user = u) = none) :
    (api_register hash d now st).1.status = 200 ∧
    ((api_register hash d now st).2).cameras =
      st.cameras ++
        [{ id := st.next_id, name := u, pi_user := u, pi_pass_hash := hash p,
           pi_ip := d.pi_ip, pi_port := d.pi_port,
           camera_model := d.camera_model, is_online := true,
           last_seen := some now }] ∧
    ∃ c ∈ api_cameras ((api_register hash d now st).2),
      c.pi_user = u ∧ c.name = u ∧ c.is_online = true ∧
        c.last_seen = some now := by
  have hcond : (strFalsy u || strFalsy p) = false := by rw [hue, hpe]; rfl
  have e2 : ((api_register hash d now st).2).cameras =
      st.cameras ++
        [{ id := st.next_id, name := u, pi_user := u, pi_pass_hash := hash p,
           pi_ip := d.pi_ip, pi_port := d.pi_port,
           camera_model := d.camera_model, is_online := true,
           last_seen := some now }] := by
    simp only [api_register, hu, hp, hcond, Bool.false_eq_true, if_false, hnew]
    rw [maybe_start_recording_cameras]
  refine ⟨?_, e2, ?_⟩
  · simp only [api_register, hu, hp, hcond, Bool.false_eq_true, if_false, hnew]
  · have hmem :
        ({ id := st.next_id, name := u, pi_user := u,
           pi_pass_hash := hash p, pi_ip := d.pi_ip, pi_port := d.pi_port,
           camera_model := d.camera_model, is_online := true,
           last_seen := some now } : Camera) ∈
          api_cameras ((api_register hash d now st).2) := by
      rw [api_cameras, mem_sortByName, e2]
      simp
    exact ⟨_, hmem, rfl, rfl, rfl, rfl⟩

/-- Witness for C2 (amended) at a concrete fresh registration. -/
theorem api_register_new_marks_online_witness :
    (api_register (fun s => s) dReg "T0" st0).1.status = 200 ∧
    ∃ c ∈ api_cameras ((api_register (fun s => s) dReg "T0" st0).2),
      c.pi_user = "cam1" ∧ c.name = "cam1" ∧ c.is_online = true ∧
        c.last_seen = some "T0" := by
  have h := api_register_new_marks_online (fun s => s) dReg "T0" st0 "cam1" "pw"
    rfl rfl (by decide) (by decide) rfl
  exact ⟨h.1, h.2.2⟩

end Surveillance
